import Mathlib

/-!
Shallow embedding of `efb_voice_recog_middleware/__init__.py`, the EFB voice
recognition middleware.  Pure/control-flow parts of the Python code are
translated into executable Lean definitions; external effects (the pydub
audio decoding and the HTTP POST calls of the `requests` library) are
abstracted as function parameters, and each provider's `recognize` is
instrumented to also return the list of HTTP requests it issued, so that
"no network call is made" is expressible.  Python exceptions are modelled
with `Except`.
-/

/-- Membership test of a string in a list, the embedding of Python's
`x in list` / `x not in list` on lists of strings. -/
def strIn (x : String) : List String → Bool
  | [] => false
  | y :: rest => x == y || strIn x rest

/-- Embedding of Python's `s.lower()` for the ASCII language codes used here:
each character is lowered individually. -/
def lowerStr (s : String) : String := String.mk (s.data.map Char.toLower)

/-- Characters before the first `'-'`, helper for `coarseLang`. -/
def coarseChars : List Char → List Char
  | [] => []
  | c :: rest => if c = '-' then [] else c :: coarseChars rest

/-- Embedding of Python's `lang.split('-')[0]` as used by the Bing language
fallback: the text before the first hyphen (the whole string when there is
no hyphen). -/
def coarseLang (s : String) : String := String.mk (coarseChars s.data)

/-- Embedding of Python's `sep.join(lines)`. -/
def joinWith (sep : String) : List String → String
  | [] => ""
  | [s] => s
  | s :: rest => s ++ sep ++ joinWith sep rest

/-- Value returned by a provider's `recognize` in the Python code: either a
plain string (`'\n'.join(rjson['result'])` on the Baidu success path) or a
list of strings (the Bing success path and every `["ERROR!", msg]`
sentinel). -/
inductive RecogResult where
  | str (s : String)
  | list (l : List String)
deriving DecidableEq

/-- Whether a `RecogResult` is a list (as opposed to a plain string). -/
def RecogResult.isList : RecogResult → Bool
  | .list _ => true
  | .str _ => false

/-- Embedding of Python's `"%s" % x` for a recognize result: a string
formats as itself, a list as its repr (elements single-quoted, separated by
comma and space, inside square brackets; quoting of special characters
inside elements is not modelled as no element here contains them). -/
def RecogResult.pyStr : RecogResult → String
  | .str s => s
  | .list l => "[" ++ joinWith ", " (l.map (fun s => "'" ++ s ++ "'")) ++ "]"

/-- Shape of the `file` argument accepted by the providers' `recognize`:
an open byte stream (an object with a `read` attribute), a path string, or
anything else. -/
inductive FileInput where
  | stream (contents : List Nat)
  | path (p : String)
  | other
deriving DecidableEq

/-- Whether the input is a path string (`isinstance(path, str)` in the
Bing `recognize`). -/
def FileInput.isPathStr : FileInput → Bool
  | .path _ => true
  | _ => false

/-- Fields of the JSON body POSTed to `http://vop.baidu.com/server_api` by
`BaiduSpeech.recognize`. -/
structure BaiduRequest where
  format : String
  rate : Nat
  channel : Nat
  cuid : String
  token : String
  lan : String
  len : Nat
  speech : String
deriving DecidableEq

/-- Fields of the JSON response consumed by `BaiduSpeech.recognize`:
`err_no`, `result` and `err_msg`. -/
structure BaiduResponse where
  err_no : Int
  result : List String
  err_msg : String
deriving DecidableEq

/-- Supported language codes of `BaiduSpeech` (`lang_list` in the source). -/
def BaiduSpeech.lang_list : List String := ["zh", "ct", "en"]

/-- Embedding of the response handling of `BaiduSpeech.recognize` (source
lines 178-182): a zero `err_no` yields the transcript lines joined with
newlines, as a single string; any other `err_no` yields the two-element
error sentinel carrying `err_msg`. -/
def BaiduSpeech.parseResponse (r : BaiduResponse) : RecogResult :=
  if r.err_no = 0 then RecogResult.str (joinWith "\n" r.result)
  else RecogResult.list ["ERROR!", r.err_msg]

/-- Embedding of `BaiduSpeech.recognize` (source lines 155-182).  The pydub
decoding plus base64 encoding is abstracted as `encode` (returning the
`speech` field and the raw byte length), the HTTP POST as `post`.  The
second component of the result is the list of HTTP requests issued, so an
empty list means no network call was made.  Inputs that are neither a
stream (object with `read`) nor a path string are rejected with the type
sentinel; then the lowercased language is checked against `lang_list`; then
the request is built (note the source sends the original-case `lang` as
`lan`) and the response parsed. -/
def BaiduSpeech.recognize (channel : Nat) (access_token : String)
    (encode : FileInput → String × Nat)
    (post : BaiduRequest → BaiduResponse)
    (file : FileInput) (lang : String) : RecogResult × List BaiduRequest :=
  match file with
  | FileInput.other =>
      (RecogResult.list
        ["ERROR!", "File must be a path string or a file object in `rb` mode."], [])
  | _ =>
      if strIn (lowerStr lang) BaiduSpeech.lang_list = false then
        (RecogResult.list ["ERROR!", "Invalid language."], [])
      else
        let enc := encode file
        let req : BaiduRequest :=
          { format := "pcm", rate := 16000, channel := channel,
            cuid := "testing_user", token := access_token, lan := lang,
            len := enc.2, speech := enc.1 }
        (BaiduSpeech.parseResponse (post req), [req])

/-- Request shape of the single HTTP POST issued by `BingSpeech.recognize`:
the `language` and `format` query parameters, the WAV body bytes, and the
subscription key header. -/
structure BingRequest where
  language : String
  format : String
  wavBytes : List Nat
  subscriptionKey : String
deriving DecidableEq

/-- Response shape consumed by `BingSpeech.recognize`: the HTTP status
code, whether the body parses as JSON (`r.json()` raising `ValueError`
when it does not), the `NBest[].Display` strings of the JSON body, and the
raw response text. -/
structure BingResponse where
  status_code : Nat
  jsonOk : Bool
  nbest : List String
  text : String
deriving DecidableEq

/-- Supported language codes of `BingSpeech` (`lang_list` in the source). -/
def BingSpeech.lang_list : List String :=
  ["ar-EG", "de-DE", "en-US", "es-ES", "fr-FR",
   "it-IT", "ja-JP", "pt-BR", "ru-RU", "zh-CN"]

/-- Embedding of the static helper `BingSpeech.first` (source lines
191-207): the first element of `data` satisfying `key`, or `none`. -/
def BingSpeech.first {α : Type} (data : List α) (key : α → Bool) : Option α :=
  match data with
  | [] => none
  | i :: rest => if key i then some i else BingSpeech.first rest key

/-- Embedding of the language normalisation of `BingSpeech.recognize`
(source lines 218-221): a language already in `lang_list` is kept; an
unsupported one is replaced by the first supported tag whose text before
`'-'` equals the input's text before `'-'` (the `first` call); the source
then re-checks membership of the (possibly `None`) replacement, returning
the sentinel — modelled here as `none` — when it fails. -/
def BingSpeech.resolveLang (lang : String) : Option String :=
  let lang1 : Option String :=
    if strIn lang BingSpeech.lang_list then some lang
    else BingSpeech.first BingSpeech.lang_list
          (fun a => coarseLang a == coarseLang lang)
  match lang1 with
  | some l => if strIn l BingSpeech.lang_list then some l else none
  | none => none

/-- Embedding of the response handling of `BingSpeech.recognize` (source
lines 239-247): a body that is not JSON yields the sentinel with the raw
text; a 200 status yields the `Display` strings of all alternatives; any
other status yields the sentinel with the raw text. -/
def BingSpeech.handleResponse (r : BingResponse) : RecogResult :=
  if r.jsonOk = false then RecogResult.list ["ERROR!", r.text]
  else if r.status_code = 200 then RecogResult.list r.nbest
  else RecogResult.list ["ERROR!", r.text]

/-- Embedding of `BingSpeech.recognize` (source lines 213-247).  Only a
path string is accepted; any other input yields the type sentinel.  The
pydub decoding and WAV export is abstracted as `toWav`, the HTTP POST as
`post`; the second component is the list of HTTP requests issued (empty
means no network call). -/
def BingSpeech.recognize (keys : String)
    (toWav : String → List Nat)
    (post : BingRequest → BingResponse)
    (path : FileInput) (lang : String) : RecogResult × List BingRequest :=
  match path with
  | FileInput.path p =>
      match BingSpeech.resolveLang lang with
      | none => (RecogResult.list ["ERROR!", "Invalid language."], [])
      | some l =>
          let req : BingRequest :=
            { language := l, format := "detailed",
              wavBytes := toWav p, subscriptionKey := keys }
          (BingSpeech.handleResponse (post req), [req])
  | _ => (RecogResult.list ["ERROR!", "File must be a path string."], [])

/-- A configured speech engine as seen by the dispatcher: its
`engine_name` and its `recognize` method (already specialised with its
credentials and effect handlers). -/
structure Engine where
  engine_name : String
  recognize : FileInput → String → RecogResult

/-- Embedding of `VoiceRecogMiddleware.recognize` (source lines 58-68):
one formatted string per configured engine, in the order of
`voice_engines`, each built by `"%s (%s): %s" % (engine_name, lang,
result)`. -/
def VoiceRecogMiddleware.recognize (voice_engines : List Engine)
    (file : FileInput) (lang : String) : List String :=
  voice_engines.map
    (fun e => e.engine_name ++ " (" ++ lang ++ "): "
      ++ RecogResult.pyStr (e.recognize file lang))

/-- Message type enumeration of the host framework (`MsgType`); only the
distinction between `Audio` and the other kinds matters to this plugin. -/
inductive MsgType where
  | Audio
  | Text
  | Image
deriving DecidableEq

/-- Author of a message; `module_id` is `none` when the attribute is unset
(Python `None`), `some ""` models an empty (falsy) string. -/
structure Author where
  module_id : Option String
deriving DecidableEq

/-- The host message object as used by `process_message`: its type, its
optional author, its mutable text, and its byte-stream handle modelled as
the stream's contents plus the current read position. -/
structure EFBMsg where
  type : MsgType
  author : Option Author
  text : String
  filePos : Nat
  fileContents : List Nat
deriving DecidableEq

/-- The temporary file `audio` of `process_message`: contents and read
position. -/
structure TempFile where
  contents : List Nat
  pos : Nat
deriving DecidableEq

/-- Embedding of `VoiceRecogMiddleware.sent_by_master` (source lines
70-75): true exactly when the author exists, its `module_id` is truthy,
and equals the fixed sentinel identifying the host's own primary channel. -/
def sent_by_master (message : EFBMsg) : Bool :=
  match message.author with
  | none => false
  | some author =>
      match author.module_id with
      | none => false
      | some mid => (mid != "") && (mid == "blueset.telegram")

/-- Embedding of `VoiceRecogMiddleware.process_message` (source lines
77-94).  Self-sent and non-audio messages are returned unchanged.
Otherwise the source copies `message.file` from its current position into
a fresh temporary file, seeks both the copy and `message.file` back to 0,
runs the recognition pass (`'\n'.join(self.recognize(audio, self.lang))`,
abstracted here as `recognizeAll` returning the list of lines and possibly
raising), and appends the joined result to `message.text`.  The source has
no `try`/`except` around the recognition pass, so an exception raised
there propagates to the caller: that is the `Except.error` branch. -/
def process_message (lang : String)
    (recognizeAll : TempFile → String → Except String (List String))
    (message : EFBMsg) : Except String EFBMsg :=
  if sent_by_master message = true ∨ message.type ≠ MsgType.Audio then
    Except.ok message
  else
    let audio : TempFile :=
      { contents := message.fileContents.drop message.filePos, pos := 0 }
    let message1 : EFBMsg := { message with filePos := 0 }
    match recognizeAll audio lang with
    | Except.error e => Except.error e
    | Except.ok results =>
        Except.ok { message1 with text := message1.text ++ joinWith "\n" results }

/-- Acquisition or release of a named scoped resource (a temporary file or
an open file handle). -/
inductive ResourceEvent where
  | acquire (id : String)
  | release (id : String)
deriving DecidableEq

/-- Identifiers acquired along a trace. -/
def acquiredIds : List ResourceEvent → List String
  | [] => []
  | ResourceEvent.acquire i :: rest => i :: acquiredIds rest
  | ResourceEvent.release _ :: rest => acquiredIds rest

/-- Identifiers released along a trace. -/
def releasedIds : List ResourceEvent → List String
  | [] => []
  | ResourceEvent.release i :: rest => i :: releasedIds rest
  | ResourceEvent.acquire _ :: rest => releasedIds rest

/-- Whether every resource acquired along the trace is also released along
it (the scoped-acquisition discipline). -/
def allReleased (t : List ResourceEvent) : Bool :=
  (acquiredIds t).all (fun i => strIn i (releasedIds t))

/-- Resource events of the recognition pass of `process_message` (source
lines 88-94) on the audio, non-self path, as a function of whether the
recognition pass raises.  The `NamedTemporaryFile()` bound to `audio` is a
bare constructor call: the source has no `with` block, no `close()` and no
`finally` for it, so neither the normal nor the exceptional exit path
contains a release event — the trace is the same on both paths. -/
def process_message_events (_raises : Bool) : List ResourceEvent :=
  [ResourceEvent.acquire "process_message.audio"]

/-- Resource events of `BingSpeech.recognize` past the language check
(source lines 213-237), as a function of whether the block body raises:
`open(path, 'rb')` acquires a file handle that the source never closes,
and the WAV `NamedTemporaryFile` is managed by a `with` statement, which
releases it both when the body returns and when it raises — so the release
event is present on both paths. -/
def BingSpeech.recognizeEvents (_raises : Bool) : List ResourceEvent :=
  [ResourceEvent.acquire "BingSpeech.file",
   ResourceEvent.acquire "BingSpeech.wav_temp",
   ResourceEvent.release "BingSpeech.wav_temp"]

/-- A string found in a list by membership is found by `strIn`. -/
theorem strIn_of_mem (x : String) (l : List String) (h : x ∈ l) :
    strIn x l = true := by
  induction l with
  | nil => cases h
  | cons y rest ih =>
      cases h with
      | head => simp [strIn]
      | tail _ hm => simp [strIn, ih hm]

/-- The element returned by `BingSpeech.first` belongs to the list and
satisfies the key. -/
theorem first_eq_some {α : Type} (l : List α) (k : α → Bool) (x : α)
    (h : BingSpeech.first l k = some x) : x ∈ l ∧ k x = true := by
  induction l with
  | nil => simp [BingSpeech.first] at h
  | cons i rest ih =>
      by_cases hk : k i = true
      · simp [BingSpeech.first, hk] at h
        subst h
        exact ⟨List.mem_cons_self i rest, hk⟩
      · simp [BingSpeech.first, hk] at h
        obtain ⟨hm, hx⟩ := ih h
        exact ⟨List.mem_cons_of_mem i hm, hx⟩

/-- A language produced by `BingSpeech.resolveLang` is in the supported
list. -/
theorem resolveLang_in_list (lang l : String)
    (h : BingSpeech.resolveLang lang = some l) :
    strIn l BingSpeech.lang_list = true := by
  simp only [BingSpeech.resolveLang] at h
  by_cases h1 : strIn lang BingSpeech.lang_list = true
  · simp [h1] at h
    subst h
    exact h1
  · simp [h1] at h
    rcases hf : BingSpeech.first BingSpeech.lang_list
        (fun a => coarseLang a == coarseLang lang) with _ | x
    · rw [hf] at h
      simp at h
    · rw [hf] at h
      by_cases h2 : strIn x BingSpeech.lang_list = true
      · simp [h2] at h
        subst h
        exact h2
      · simp [h2] at h

/-- C1: for every message whose type is not Audio, or whose
`author.module_id` equals the host's own fixed identifier
`"blueset.telegram"`, `process_message` returns the same message with its
text unchanged. -/
theorem process_message_passthrough_C1
    (lang : String)
    (recognizeAll : TempFile → String → Except String (List String))
    (message : EFBMsg)
    (h : message.type ≠ MsgType.Audio ∨
         ∃ a, message.author = some a ∧ a.module_id = some "blueset.telegram") :
    process_message lang recognizeAll message = Except.ok message := by
  unfold process_message
  cases h with
  | inl h => rw [if_pos (Or.inr h)]
  | inr h =>
      obtain ⟨a, ha, hm⟩ := h
      have hs : sent_by_master message = true := by
        simp [sent_by_master, ha, hm]
      rw [if_pos (Or.inl hs)]

/-- A recognition pass that always succeeds with one line, for witnesses. -/
def okRecogAll : TempFile → String → Except String (List String) :=
  fun _ _ => Except.ok ["hi"]

/-- A concrete non-audio message. -/
def textMsg : EFBMsg :=
  { type := MsgType.Text, author := none, text := "hello",
    filePos := 3, fileContents := [9, 9] }

/-- Witness for C1: a concrete text message passes through unchanged. -/
theorem process_message_passthrough_C1_witness :
    process_message "zh" okRecogAll textMsg = Except.ok textMsg :=
  process_message_passthrough_C1 "zh" okRecogAll textMsg (Or.inl (by decide))

/-- A recognition pass that raises, modelling a network or decoding
exception inside `recognize`. -/
def boomRecogAll : TempFile → String → Except String (List String) :=
  fun _ _ => Except.error "network down"

/-- A concrete audio message not sent by the master channel. -/
def audioMsg : EFBMsg :=
  { type := MsgType.Audio, author := none, text := "orig",
    filePos := 0, fileContents := [1, 2] }

/-- Counterexample to C2: on a concrete audio, non-self message whose
recognition pass raises, `process_message` propagates the exception — it
does not return the message with the fixed string
"Failed to recognize voice content." appended (the source has no
`try`/`except` and that string appears nowhere in it). -/
theorem process_message_exception_C2_cex :
    process_message "zh" boomRecogAll audioMsg = Except.error "network down" ∧
    process_message "zh" boomRecogAll audioMsg ≠
      Except.ok { audioMsg with
                  text := audioMsg.text ++ "Failed to recognize voice content." } := by
  constructor
  · rfl
  · intro h
    rw [(rfl : process_message "zh" boomRecogAll audioMsg
          = Except.error "network down")] at h
    exact Except.noConfusion h

/-- C2 amended: for every audio, non-self-sent message, an exception
raised during the recognition pass propagates out of `process_message`
unchanged; no fixed error string is substituted into the text. -/
theorem process_message_exception_C2_amended
    (lang : String)
    (recognizeAll : TempFile → String → Except String (List String))
    (message : EFBMsg) (e : String)
    (h1 : sent_by_master message = false)
    (h2 : message.type = MsgType.Audio)
    (h3 : recognizeAll
            { contents := message.fileContents.drop message.filePos, pos := 0 } lang
            = Except.error e) :
    process_message lang recognizeAll message = Except.error e := by
  unfold process_message
  rw [if_neg]
  · simp only [h3]
  · rintro (hs | ht)
    · rw [h1] at hs
      exact Bool.false_ne_true hs
    · exact ht h2

/-- Witness for the amended C2 at a concrete message and raising
recognizer. -/
theorem process_message_exception_C2_witness :
    process_message "zh" boomRecogAll audioMsg = Except.error "network down" :=
  process_message_exception_C2_amended "zh" boomRecogAll audioMsg "network down"
    (by decide) (by decide) rfl

/-- C3: a Baidu response with `err_no = 0` yields the transcript lines
joined with newlines, and one with a nonzero `err_no` yields the sentinel
`["ERROR!", err_msg]`. -/
theorem baidu_response_mapping_C3 (r : BaiduResponse) :
    (r.err_no = 0 →
      BaiduSpeech.parseResponse r = RecogResult.str (joinWith "\n" r.result)) ∧
    (r.err_no ≠ 0 →
      BaiduSpeech.parseResponse r = RecogResult.list ["ERROR!", r.err_msg]) := by
  constructor <;> intro h <;> simp [BaiduSpeech.parseResponse, h]

/-- Witness for C3 at the spec's two concrete responses. -/
theorem baidu_response_mapping_C3_witness :
    BaiduSpeech.parseResponse { err_no := 0, result := ["hello", "world"], err_msg := "" }
      = RecogResult.str "hello\nworld" ∧
    BaiduSpeech.parseResponse { err_no := 3301, result := [], err_msg := "bad audio" }
      = RecogResult.list ["ERROR!", "bad audio"] := by
  constructor
  · exact (baidu_response_mapping_C3 _).1 rfl
  · exact (baidu_response_mapping_C3 _).2 (by decide)

/-- C4: on the Bing provider, a language tag not in the supported list is
replaced by the first supported tag sharing its text before `'-'` (so
"en-GB" resolves to "en-US"), and when no supported tag shares that text
(such as "xx-YY") `recognize` returns the error sentinel without any
network call. -/
theorem bing_lang_fallback_C4 :
    (∀ lang : String, strIn lang BingSpeech.lang_list = false →
        BingSpeech.resolveLang lang =
          BingSpeech.first BingSpeech.lang_list
            (fun a => coarseLang a == coarseLang lang)) ∧
    BingSpeech.resolveLang "en-GB" = some "en-US" ∧
    (∀ (p keys : String) (toWav : String → List Nat)
        (post : BingRequest → BingResponse),
        BingSpeech.recognize keys toWav post (FileInput.path p) "xx-YY" =
          (RecogResult.list ["ERROR!", "Invalid language."], [])) := by
  refine ⟨?_, by decide, ?_⟩
  · intro lang h
    simp only [BingSpeech.resolveLang]
    rw [if_neg (by simp [h])]
    rcases hf : BingSpeech.first BingSpeech.lang_list
        (fun a => coarseLang a == coarseLang lang) with _ | x
    · rfl
    · have hx := strIn_of_mem _ _ (first_eq_some _ _ _ hf).1
      simp [hx]
  · intro p keys toWav post
    have h0 : BingSpeech.resolveLang "xx-YY" = none := by decide
    simp [BingSpeech.recognize, h0]

/-- Witness for C4 at a concrete unsupported language: the resolution of
"en-GB" is exactly the first prefix match over the supported list. -/
theorem bing_lang_fallback_C4_witness :
    BingSpeech.resolveLang "en-GB" =
      BingSpeech.first BingSpeech.lang_list
        (fun a => coarseLang a == coarseLang "en-GB") :=
  bing_lang_fallback_C4.1 "en-GB" (by decide)

/-- C5: the dispatcher returns exactly one string per configured engine,
in the same order, each of the form `"<engine-name> (<lang>): <result>"`. -/
theorem dispatcher_format_C5 (voice_engines : List Engine)
    (file : FileInput) (lang : String) :
    (VoiceRecogMiddleware.recognize voice_engines file lang).length
        = voice_engines.length ∧
    ∀ i : Nat,
      (VoiceRecogMiddleware.recognize voice_engines file lang)[i]? =
        voice_engines[i]?.map
          (fun e => e.engine_name ++ " (" ++ lang ++ "): "
            ++ RecogResult.pyStr (e.recognize file lang)) := by
  constructor
  · simp [VoiceRecogMiddleware.recognize]
  · intro i
    simp [VoiceRecogMiddleware.recognize, List.getElem?_map]

/-- C6: each provider returns its input-type error sentinel with no
network call exactly when the input shape is unsupported — for Baidu any
input that is neither a stream nor a path string, for Bing any input that
is not a path string. -/
theorem provider_type_sentinel_C6
    (channel : Nat) (access_token : String)
    (encode : FileInput → String × Nat) (post : BaiduRequest → BaiduResponse)
    (keys : String) (toWav : String → List Nat)
    (postB : BingRequest → BingResponse)
    (file : FileInput) (lang : String) :
    (BaiduSpeech.recognize channel access_token encode post file lang =
        (RecogResult.list
          ["ERROR!", "File must be a path string or a file object in `rb` mode."], [])
      ↔ file = FileInput.other) ∧
    (BingSpeech.recognize keys toWav postB file lang =
        (RecogResult.list ["ERROR!", "File must be a path string."], [])
      ↔ FileInput.isPathStr file = false) := by
  constructor
  · cases file with
    | other => simp [BaiduSpeech.recognize]
    | stream c =>
        simp only [BaiduSpeech.recognize]
        constructor
        · intro h
          split at h
          · exact absurd h (by decide)
          · exact (List.cons_ne_nil _ _ (congrArg Prod.snd h)).elim
        · intro h
          exact FileInput.noConfusion h
    | path p =>
        simp only [BaiduSpeech.recognize]
        constructor
        · intro h
          split at h
          · exact absurd h (by decide)
          · exact (List.cons_ne_nil _ _ (congrArg Prod.snd h)).elim
        · intro h
          exact FileInput.noConfusion h
  · cases file with
    | other => simp [BingSpeech.recognize, FileInput.isPathStr]
    | stream c => simp [BingSpeech.recognize, FileInput.isPathStr]
    | path p =>
        simp only [BingSpeech.recognize, FileInput.isPathStr]
        constructor
        · intro h
          split at h
          · exact absurd h (by decide)
          · exact (List.cons_ne_nil _ _ (congrArg Prod.snd h)).elim
        · intro h
          exact absurd h (by decide)

/-- A network stub whose response is a successful two-line transcript. -/
def c7post : BaiduRequest → BaiduResponse :=
  fun _ => { err_no := 0, result := ["hello", "world"], err_msg := "" }

/-- A trivial audio encoding stub. -/
def c7encode : FileInput → String × Nat := fun _ => ("", 0)

/-- Counterexample to C7: on a successful response the Baidu provider's
recognize returns the single joined string, not a list of strings. -/
theorem provider_result_shape_C7_cex :
    (BaiduSpeech.recognize 1 "tok" c7encode c7post (FileInput.path "a.mp3") "zh").1
        = RecogResult.str "hello\nworld" ∧
    RecogResult.isList
        (BaiduSpeech.recognize 1 "tok" c7encode c7post (FileInput.path "a.mp3") "zh").1
      = false := by
  decide

/-- C7 amended: the Baidu provider's recognize returns either a single
newline-joined string (success) or the two-element sentinel
`["ERROR!", msg]`; the Bing provider's recognize always returns a list of
strings. -/
theorem provider_result_shape_C7_amended
    (channel : Nat) (access_token : String)
    (encode : FileInput → String × Nat) (post : BaiduRequest → BaiduResponse)
    (keys : String) (toWav : String → List Nat)
    (postB : BingRequest → BingResponse)
    (file : FileInput) (lang : String) :
    ((∃ s, (BaiduSpeech.recognize channel access_token encode post file lang).1
            = RecogResult.str s) ∨
     (∃ m, (BaiduSpeech.recognize channel access_token encode post file lang).1
            = RecogResult.list ["ERROR!", m])) ∧
    (∃ l, (BingSpeech.recognize keys toWav postB file lang).1
            = RecogResult.list l) := by
  constructor
  · cases file with
    | other => exact Or.inr ⟨_, rfl⟩
    | stream c =>
        simp only [BaiduSpeech.recognize]
        split
        · exact Or.inr ⟨_, rfl⟩
        · simp only [BaiduSpeech.parseResponse]
          split
          · exact Or.inl ⟨_, rfl⟩
          · exact Or.inr ⟨_, rfl⟩
    | path p =>
        simp only [BaiduSpeech.recognize]
        split
        · exact Or.inr ⟨_, rfl⟩
        · simp only [BaiduSpeech.parseResponse]
          split
          · exact Or.inl ⟨_, rfl⟩
          · exact Or.inr ⟨_, rfl⟩
  · cases file with
    | other => exact ⟨_, rfl⟩
    | stream c => exact ⟨_, rfl⟩
    | path p =>
        simp only [BingSpeech.recognize]
        rcases BingSpeech.resolveLang lang with _ | l
        · exact ⟨_, rfl⟩
        · simp only [BingSpeech.handleResponse]
          split
          · exact ⟨_, rfl⟩
          · split
            · exact ⟨_, rfl⟩
            · exact ⟨_, rfl⟩

/-- Counterexample to C8: the adapter's temporary audio buffer is acquired
but never released, on the normal and on the exceptional exit path alike,
so the recognition pass does not release every scoped resource on every
exit path. -/
theorem resource_release_C8_cex :
    allReleased (process_message_events false) = false ∧
    allReleased (process_message_events true) = false := by
  decide

/-- C8 amended: the Bing provider's intermediate WAV temporary file is
released on every exit path via its `with` block, but the adapter's
temporary audio buffer and the Bing input file handle are never released
on any exit path. -/
theorem resource_release_C8_amended (raises : Bool) :
    strIn "BingSpeech.wav_temp"
        (releasedIds (BingSpeech.recognizeEvents raises)) = true ∧
    strIn "process_message.audio"
        (releasedIds (process_message_events raises)) = false ∧
    strIn "BingSpeech.file"
        (releasedIds (BingSpeech.recognizeEvents raises)) = false := by
  cases raises <;> decide

/-- C9: on an audio, non-self-sent message whose recognition pass
succeeds, `process_message` mutates only the text (appending the joined
transcript); type, author and file contents are unchanged and the file
position is reset to 0, the recognizer having received the copied audio at
position 0. -/
theorem process_message_frame_C9
    (lang : String)
    (recognizeAll : TempFile → String → Except String (List String))
    (message : EFBMsg) (results : List String)
    (h1 : sent_by_master message = false)
    (h2 : message.type = MsgType.Audio)
    (h3 : recognizeAll
            { contents := message.fileContents.drop message.filePos, pos := 0 } lang
            = Except.ok results) :
    process_message lang recognizeAll message =
      Except.ok
        { type := message.type, author := message.author,
          text := message.text ++ joinWith "\n" results,
          filePos := 0, fileContents := message.fileContents } := by
  unfold process_message
  rw [if_neg]
  · simp only [h3]
  · rintro (hs | ht)
    · rw [h1] at hs
      exact Bool.false_ne_true hs
    · exact ht h2

/-- A concrete audio message whose stream stands at position 1. -/
def audioMsg2 : EFBMsg :=
  { type := MsgType.Audio, author := none, text := "note: ",
    filePos := 1, fileContents := [7, 8, 9] }

/-- Witness for C9 at a concrete audio message. -/
theorem process_message_frame_C9_witness :
    process_message "zh" okRecogAll audioMsg2 =
      Except.ok
        { type := MsgType.Audio, author := none, text := "note: hi",
          filePos := 0, fileContents := [7, 8, 9] } :=
  process_message_frame_C9 "zh" okRecogAll audioMsg2 ["hi"] rfl rfl rfl

/-- C10: every HTTP request issued by the Bing provider's recognize
carries a language from the supported list. -/
theorem bing_request_lang_C10
    (keys : String) (toWav : String → List Nat)
    (post : BingRequest → BingResponse)
    (file : FileInput) (lang : String) (req : BingRequest)
    (h : req ∈ (BingSpeech.recognize keys toWav post file lang).2) :
    strIn req.language BingSpeech.lang_list = true := by
  cases file with
  | stream c => simp [BingSpeech.recognize] at h
  | other => simp [BingSpeech.recognize] at h
  | path p =>
      rcases hr : BingSpeech.resolveLang lang with _ | l
      · simp [BingSpeech.recognize, hr] at h
      · simp [BingSpeech.recognize, hr] at h
        subst h
        exact resolveLang_in_list lang l hr

/-- A constant successful Bing network stub. -/
def c10post : BingRequest → BingResponse :=
  fun _ => { status_code := 200, jsonOk := true, nbest := ["ok"], text := "" }

/-- Witness for C10: the request issued for language "en-US" carries a
supported language. -/
theorem bing_request_lang_C10_witness :
    strIn "en-US" BingSpeech.lang_list = true :=
  bing_request_lang_C10 "k" (fun _ => []) c10post (FileInput.path "a.ogg") "en-US"
    { language := "en-US", format := "detailed", wavBytes := [], subscriptionKey := "k" }
    (by decide)
